import Mathlib

/-!
Verification of the Notebook-Buddy backend against its specification.

The relevant Python services are shallowly embedded as Lean functions:

* `server/api/services/auth_service.py` — password hashing, user creation,
  authentication (`create_user`, `authenticate_user`, `verify_password`);
* `server/api/endpoints/auth.py` — the `/auth/create-user` handler;
* `server/api/endpoints/text_blocks.py` — the batch save and delete handlers
  for text blocks, together with `server/api/services/dynamodb_service.py`;
* `server/api/services/pinecone_service.py` — the vector record pipeline
  (`upsert_records`, `search_records`, `_get_embedding`) and the
  `/pinecone/indexes/{index}/search` handler of
  `server/api/endpoints/pinecone.py`.

External collaborators (DynamoDB, Pinecone, OpenAI, passlib/bcrypt, Python's
built-in `list.sort` and `random.uniform`) are modelled by their documented
contracts; every such modelling choice is noted at the definition it concerns.
Python dictionaries are modelled as association lists in insertion order, and
Python's truthiness test on optional strings is made explicit.
-/

/-! ### Python dictionaries (string-valued association lists) -/

/-- Lookup in a Python dict modelled as an association list: `d.get(k)`. -/
def dictGet (d : List (String × String)) (k : String) : Option String :=
  (d.find? (fun p => p.1 == k)).map (fun p => p.2)

/-- Assignment `d[k] = v` on a Python dict: an existing key keeps its position
and gets the new value, a new key is appended at the end. -/
def dictInsert : List (String × String) → String → String → List (String × String)
  | [], k, v => [(k, v)]
  | p :: d, k, v => if p.1 == k then (k, v) :: d else p :: dictInsert d k v

/-- Python truthiness test `not x` for an optional string: `None` and `""` are
falsy, every other string is truthy. -/
def pyFalsyOptStr : Option String → Bool
  | none => true
  | some s => s == ""

/-! ### Credential store adapter (`auth_service.py`) -/

/-- `pwd_context.hash` of the external passlib bcrypt context, modelled by its
contract: the hash determines and is determined by the hashed password.  The
tag keeps hashes disjoint from raw passwords ("stores a salted hash, never the
raw password"). -/
def get_password_hash (password : String) : String :=
  "bcrypt-sha$" ++ password

/-- `verify_password` (`auth_service.py`, lines 62-63): `pwd_context.verify`,
modelled by the bcrypt contract — verification succeeds exactly when the hash
was produced from the supplied plain password. -/
def verify_password (plain hashed : String) : Bool :=
  hashed == get_password_hash plain

/-- A user item of the `NotebookBuddy_NextAuth` DynamoDB table.  DynamoDB items
are schemaless, so attributes that some writers omit (`hashed_password`,
`name`, `provider`) are optional. -/
structure StoredUser where
  pk : String
  email : String
  name : Option String
  hashed_password : Option String
  is_active : Bool
  is_demo : Bool
  provider : Option String
deriving Repr, DecidableEq

/-- The user table, keyed by email (`get_item` on `pk = sk = USER#email`). -/
abbrev UserStore : Type := String → Option StoredUser

/-- `get_user_by_email` (`auth_service.py`, lines 68-86): point lookup. -/
def get_user_by_email (store : UserStore) (email : String) : Option StoredUser :=
  store email

/-- The dict returned by `AuthService.create_user`. -/
structure CreatedUserOut where
  id : String
  email : String
  is_active : Bool
  is_demo : Bool
deriving Repr, DecidableEq

/-- The dict returned by `AuthService.authenticate_user`. -/
structure AuthUserOut where
  id : String
  email : String
  is_active : Bool
deriving Repr, DecidableEq

/-- `AuthService.create_user` (`auth_service.py`, lines 88-116): hash the
password, `put_item` the user record keyed by email, return the public view.
The updated store is returned alongside. -/
def create_user (store : UserStore) (email password : String) :
    CreatedUserOut × UserStore :=
  let hashed := get_password_hash password
  let user : StoredUser :=
    { pk := "USER#" ++ email
      email := email
      name := none
      hashed_password := some hashed
      is_active := true
      is_demo := false
      provider := none }
  (⟨user.pk, user.email, user.is_active, user.is_demo⟩,
   fun e => if e = email then some user else store e)

/-- `AuthService.authenticate_user` (`auth_service.py`, lines 118-129).
`user['hashed_password']` is a bracket access: on a record without that
attribute Python raises `KeyError`, which the embedding surfaces as
`Except.error`. -/
def authenticate_user (store : UserStore) (email password : String) :
    Except String (Option AuthUserOut) :=
  match get_user_by_email store email with
  | none => .ok none
  | some user =>
    match user.hashed_password with
    | none => .error "KeyError: hashed_password"
    | some h =>
      if verify_password password h then
        .ok (some ⟨user.pk, user.email, user.is_active⟩)
      else
        .ok none

/-! ### The `/auth/create-user` endpoint (`endpoints/auth.py`) -/

/-- The `UserCreate` request body (`endpoints/auth.py`, lines 11-16). -/
structure UserCreateReq where
  email : String
  password : Option String
  name : Option String
  provider : Option String
  providerId : Option String
deriving Repr, DecidableEq

/-- Response data of the create-user handler for an already-registered user. -/
structure ExistingUserData where
  id : String
  email : String
  name : Option String
  provider : Option String
deriving Repr, DecidableEq

/-- Outcome of the `/auth/create-user` handler. -/
inductive CreateUserHttp where
  | ok (data : ExistingUserData)
  | err (status : Nat) (detail : String)
deriving Repr, DecidableEq

/-- The `create_user` handler (`endpoints/auth.py`, lines 22-66).  For a new
user it invokes `auth_service.create_user(email=..., password=..., name=...,
provider=..., provider_id=...)`, but `AuthService.create_user(self, email,
password)` accepts no `name`, `provider` or `provider_id` keyword: Python
raises `TypeError` at the call site, before the service body runs, and the
handler's `except` clause surfaces it as HTTP 500.  No `put_item` is executed,
so the store is returned unchanged. -/
def create_user_endpoint (store : UserStore) (req : UserCreateReq) :
    CreateUserHttp × UserStore :=
  match get_user_by_email store req.email with
  | some existing =>
    if existing.provider == req.provider then
      (.ok ⟨existing.pk.replace "USER#" "", existing.email, existing.name,
            existing.provider⟩, store)
    else
      (.err 400 "Email already registered with different provider", store)
  | none =>
    (.err 500 "TypeError: create_user() got an unexpected keyword argument",
     store)

/-- The empty user table. -/
def emptyUserStore : UserStore := fun _ => none

/-- A create-user request supplying neither a password nor a provider. -/
def noCredentialReq : UserCreateReq :=
  ⟨"new@user.com", none, none, none, none⟩

/-- A user table holding one record without a stored password hash (an
OAuth-style identity). -/
def noHashStore : UserStore := fun e =>
  if e = "x@y.z" then
    some ⟨"USER#x@y.z", "x@y.z", some "Xena", none, true, false, some "google"⟩
  else
    none

/-! ### Text blocks (`endpoints/text_blocks.py`, `dynamodb_service.py`) -/

/-- The pydantic `TextBlock` request model (`endpoints/text_blocks.py`,
lines 13-16): `id`, `content` and `order` are all required fields (none has a
default and none is `Optional`). -/
structure TextBlock where
  id : String
  content : String
  order : Int
deriving Repr, DecidableEq

/-- An incoming JSON block before pydantic validation: any of the three fields
may be absent from the request body. -/
structure RawTextBlock where
  id : Option String
  content : Option String
  order : Option Int
deriving Repr, DecidableEq

/-- Pydantic validation of a single block: every required field must be
present, otherwise FastAPI rejects the request. -/
def parseTextBlock (raw : RawTextBlock) : Option TextBlock :=
  match raw.id, raw.content, raw.order with
  | some i, some c, some o => some ⟨i, c, o⟩
  | _, _, _ => none

/-- Pydantic validation of the `blocks` list of a `BlocksPayload`: the request
is rejected (HTTP 422) as soon as any block fails validation. -/
def parseBlocks : List RawTextBlock → Option (List TextBlock)
  | [] => some []
  | r :: rs =>
    match parseTextBlock r, parseBlocks rs with
    | some b, some bs => some (b :: bs)
    | _, _ => none

/-- The dict returned by `DynamoDBService.save_text_block`
(`dynamodb_service.py`, lines 203-238): `{'id': block_id, 'content': content,
'order': order}`. -/
structure SavedBlock where
  id : String
  content : String
  order : Int
deriving Repr, DecidableEq

/-- `DynamoDBService.save_text_block`: upsert by composite key and return the
saved view.  Only the returned view matters to the save endpoint. -/
def save_text_block (blockId content : String) (order : Int) : SavedBlock :=
  ⟨blockId, content, order⟩

/-- The `saved_blocks` list built by the save handler before sorting
(`endpoints/text_blocks.py`, lines 66-78).  The handler computes
`order = block.order if hasattr(block, 'order') else index`; a pydantic
`TextBlock` always has the `order` attribute, so the `index` fallback is dead
code and the caller's value is always kept. -/
def savedList (blocks : List TextBlock) : List SavedBlock :=
  blocks.map (fun b => save_text_block b.id b.content b.order)

/-- Comparison key of `saved_blocks.sort(key=lambda x: x['order'])`. -/
def bOrderLe (a b : SavedBlock) : Prop := a.order ≤ b.order

instance : DecidableRel bOrderLe :=
  fun a b => inferInstanceAs (Decidable (a.order ≤ b.order))

instance : IsTotal SavedBlock bOrderLe :=
  ⟨fun a b => Int.le_total a.order b.order⟩

instance : IsTrans SavedBlock bOrderLe :=
  ⟨fun _ _ _ h h' => le_trans h h'⟩

/-- The body of the save handler after validation (`endpoints/text_blocks.py`,
lines 66-88): save each block, then `saved_blocks.sort(key=lambda x:
x['order'])`.  Python's built-in `list.sort` is documented as a stable sort; it
is modelled by `List.insertionSort`, which inserts each element before the
first strictly-greater key and therefore keeps equal keys in input order. -/
def save_text_blocks (blocks : List TextBlock) : List SavedBlock :=
  List.insertionSort bOrderLe (savedList blocks)

/-- Outcome of `PUT /text-blocks/{project_id}`. -/
inductive SaveBlocksResponse where
  | validationError
  | ok (blocks : List SavedBlock)
deriving Repr, DecidableEq

/-- The full save endpoint: request validation, then the handler body. -/
def save_text_blocks_endpoint (raw : List RawTextBlock) : SaveBlocksResponse :=
  match parseBlocks raw with
  | none => .validationError
  | some blocks => .ok (save_text_blocks blocks)

/-- Same comparison key, lifted to blocks tagged with their submission index
(used to state stability of the sort). -/
def pairOrderLe (p q : Nat × SavedBlock) : Prop := p.2.order ≤ q.2.order

instance : DecidableRel pairOrderLe :=
  fun p q => inferInstanceAs (Decidable (p.2.order ≤ q.2.order))

/-- Strict before-relation certifying a stable sort: earlier in the output
means strictly smaller order, or equal order and an earlier submission
index. -/
def lexBefore (p q : Nat × SavedBlock) : Prop :=
  p.2.order < q.2.order ∨ (p.2.order = q.2.order ∧ p.1 < q.1)

/-- An item of the `NotebookBuddy_TextBlocks` table, keyed by
`(projectId, textBlockId)`. -/
structure BlockItem where
  projectId : String
  textBlockId : String
  content : String
  order : Int
deriving Repr, DecidableEq

/-- The text-block table. -/
abbrev BlockTable : Type := List BlockItem

/-- `DynamoDBService.delete_text_block` (`dynamodb_service.py`, lines
240-255): a DynamoDB `delete_item`, which by the DynamoDB contract removes the
item when present and succeeds silently when the key does not exist. -/
def delete_text_block (t : BlockTable) (pid bid : String) : BlockTable :=
  t.filter (fun b => !(b.projectId == pid && b.textBlockId == bid))

/-- The uniform success envelope of the delete endpoint. -/
structure DeleteEnvelope where
  status : String
  message : String
deriving Repr, DecidableEq

/-- `DELETE /text-blocks/{project_id}/{block_id}` (`endpoints/text_blocks.py`,
lines 93-112): call the service, then return the success envelope. -/
def delete_text_block_endpoint (t : BlockTable) (pid bid : String) :
    DeleteEnvelope × BlockTable :=
  (⟨"success", "Block deleted successfully"⟩, delete_text_block t pid bid)

/-! ### Embedding client and vector record pipeline (`pinecone_service.py`) -/

/-- Environment of `_get_embedding`: the `OPENAI_API_KEY` value, the outcome
of the provider call (`none` when `client.embeddings.create` raises), and the
successive values drawn by `random.random()` (each in `[0, 1)` by Python's
contract). -/
structure EmbedEnv where
  openai_api_key : Option String
  provider_response : Option (List ℚ)
  rng : Nat → ℚ

/-- Python's `random.uniform(a, b) = a + (b - a) * random()`. -/
def pyUniform (a b r : ℚ) : ℚ := a + (b - a) * r

/-- The placeholder embedding `[random.uniform(-1, 1) for _ in range(3072)]`
(`pinecone_service.py`, lines 482 and 506). -/
def placeholderEmbedding (rng : Nat → ℚ) : List ℚ :=
  (List.range 3072).map (fun i => pyUniform (-1) 1 (rng i))

/-- `PineconeService._get_embedding` (`pinecone_service.py`, lines 469-506):
if `OPENAI_API_KEY` is unset (or empty, which Python's `not` also treats as
missing) the placeholder is returned; otherwise the provider is called, and
any exception in the `try` block falls back to the placeholder as well. -/
def get_embedding (env : EmbedEnv) (_text : String) : List ℚ :=
  if pyFalsyOptStr env.openai_api_key then
    placeholderEmbedding env.rng
  else
    match env.provider_response with
    | some emb => emb
    | none => placeholderEmbedding env.rng

/-- A record submitted to `upsert_records`: `record.get("_id")` and
`record.get("content")` may be absent, and the caller may attach a title and a
metadata dict. -/
structure UpsertRecord where
  recId : Option String
  content : Option String
  title : Option String
  metadata : Option (List (String × String))
deriving Repr, DecidableEq

/-- A vector entry handed to `index.upsert`. -/
structure PCVector where
  vid : String
  values : List ℚ
  metadata : List (String × String)
deriving Repr, DecidableEq

/-- Metadata construction of `upsert_records` (`pinecone_service.py`, lines
190-206): start from `{"content": content}`, add `title` when the record has
one, then copy every caller-supplied metadata entry into the dict, overwriting
existing keys. -/
def mkVectorMetadata (r : UpsertRecord) : List (String × String) :=
  let d := [("content", r.content.getD "")]
  let d :=
    match r.title with
    | some t => dictInsert d "title" t
    | none => d
  match r.metadata with
  | some md => md.foldl (fun acc kv => dictInsert acc kv.1 kv.2) d
  | none => d

/-- The record-processing loop of `upsert_records` (`pinecone_service.py`,
lines 168-208): for each record in order, require a truthy `_id` and `content`
(otherwise the whole call returns the validation message), embed the content,
and build the vector entry.  The embedding-failure guard mirrors the dead
`if not embedding` robustness check. -/
def buildVectors (env : EmbedEnv) : List UpsertRecord → Except String (List PCVector)
  | [] => .ok []
  | r :: rs =>
    if pyFalsyOptStr r.recId || pyFalsyOptStr r.content then
      .error "Each record must have _id and content fields"
    else
      let embedding := get_embedding env (r.content.getD "")
      if embedding.isEmpty then
        .error ("Failed to get embedding for record " ++ r.recId.getD "")
      else
        match buildVectors env rs with
        | .error msg => .error msg
        | .ok vs => .ok (⟨r.recId.getD "", embedding, mkVectorMetadata r⟩ :: vs)

/-- Result dict of `upsert_records`. -/
inductive UpsertResult where
  | ok (message : String) (upserted_count : Nat)
  | err (message : String)
deriving Repr, DecidableEq

/-- `PineconeService.upsert_records` (`pinecone_service.py`, lines 145-233):
resolve the index, process all records, then hand the whole vector batch to
`index.upsert` in a single call.  The second component is the list of vectors
actually sent to the external index — empty whenever `index.upsert` is never
reached, which models "persists nothing". -/
def upsert_records (env : EmbedEnv) (indexExists : Bool)
    (records : List UpsertRecord) (_ns : String) : UpsertResult × List PCVector :=
  if !indexExists then
    (.err "Index not found", [])
  else
    match buildVectors env records with
    | .error msg => (.err msg, [])
    | .ok vs =>
      (.ok ("Upserted " ++ toString vs.length ++ " records") vs.length, vs)

/-- A raw match of the Pinecone query response: every field is read with
`.get(...)` and a default, so all of them may be absent. -/
structure RawMatch where
  mid : Option String
  score : Option ℚ
  metadata : Option (List (String × String))
deriving Repr, DecidableEq

/-- The serializable match built by `search_records`:
`{"id": str(...), "score": float(...), "metadata": dict(...)}`. -/
structure MatchOut where
  mid : String
  score : ℚ
  metadata : List (String × String)
deriving Repr, DecidableEq

/-- Normalization of one match (`pinecone_service.py`, lines 313-320). -/
def normalizeMatch (m : RawMatch) : MatchOut :=
  ⟨m.mid.getD "", m.score.getD 0, m.metadata.getD []⟩

/-- Result of `PineconeService.search_records`. -/
inductive SearchResult where
  | ok (found : List MatchOut)
  | err (message : String)
deriving Repr, DecidableEq

/-- `PineconeService.search_records` (`pinecone_service.py`, lines 262-335):
embed the query, resolve the index, query it (the raw matches model whatever
the external index returns for the namespace), normalize each match.  The
`rerank` branch of the source is a no-op (`pass`), so it does not appear. -/
def search_records (env : EmbedEnv) (text_query : String) (indexExists : Bool)
    (raw : List RawMatch) : SearchResult :=
  let embedding := get_embedding env text_query
  if embedding.isEmpty then
    .err "Failed to get embedding for text query"
  else if !indexExists then
    .err "Index not found"
  else
    .ok (raw.map normalizeMatch)

/-- Outcome of `POST /pinecone/indexes/{index_name}/search`. -/
inductive SearchHttpResponse where
  | ok (found : List MatchOut)
  | err (status : Nat) (detail : String)
deriving Repr, DecidableEq

/-- The `search_records` handler (`endpoints/pinecone.py`, lines 260-299):
call the service, then — `if request.namespace and matches:` — keep only the
matches whose metadata `userId` equals the request's namespace. -/
def search_records_endpoint (env : EmbedEnv) (text_query : String)
    (indexExists : Bool) (ns : String) (raw : List RawMatch) : SearchHttpResponse :=
  match search_records env text_query indexExists raw with
  | .err msg => .err 500 msg
  | .ok ms =>
    let filtered :=
      if !(ns == "") && !ms.isEmpty then
        ms.filter (fun m => dictGet m.metadata "userId" == some ns)
      else
        ms
    .ok filtered

/-- A degraded-mode embedding environment: no provider credential, and a
`random.random()` stream that always yields `0`. -/
def offlineEnv : EmbedEnv := ⟨none, none, fun _ => 0⟩

/-- An online embedding environment whose provider returns a one-component
vector (enough to exercise the non-placeholder paths cheaply). -/
def onlineEnv : EmbedEnv := ⟨some "sk-test", some [1], fun _ => 0⟩

/-- A record whose caller-supplied metadata forges the `content` key, while
the record's own content (the text that gets embedded) differs. -/
def forgedContentRecord : UpsertRecord :=
  ⟨some "r1", some "real content", none, some [("content", "forged")]⟩

/-- A mixed-tenant raw result set: matches tagged `user-42` and `user-7`, and
one match without metadata. -/
def mixedRaw : List RawMatch :=
  [⟨some "a", some 1, some [("userId", "user-42"), ("title", "t")]⟩,
   ⟨some "b", some (1/2), some [("userId", "user-7")]⟩,
   ⟨some "c", none, none⟩]

/-! ### Helper lemmas -/

theorem get_password_hash_inj {a b : String}
    (h : get_password_hash a = get_password_hash b) : a = b := by
  unfold get_password_hash at h
  have hd := congrArg String.data h
  simp only [String.data_append] at hd
  exact String.ext (List.append_cancel_left hd)

theorem dictGet_insert_self (d : List (String × String)) (k v : String) :
    dictGet (dictInsert d k v) k = some v := by
  induction d with
  | nil => simp [dictInsert, dictGet]
  | cons p d ih =>
    by_cases hp : p.1 == k
    · simp [dictInsert, hp, dictGet]
    · simp [dictInsert, hp, dictGet, List.find?] at ih ⊢
      exact ih

theorem dictGet_foldl_of_not_mem (md : List (String × String)) (k : String)
    (acc : List (String × String)) (h : ∀ kv ∈ md, (kv.1 == k) = false) :
    dictGet (md.foldl (fun a kv => dictInsert a kv.1 kv.2) acc) k = dictGet acc k := by
  induction md generalizing acc with
  | nil => rfl
  | cons kv tl ih =>
    rw [List.foldl_cons, ih _ (fun p hp => h p (List.mem_cons_of_mem _ hp))]
    -- inserting under a different key leaves the lookup unchanged
    have hne : (kv.1 == k) = false := h kv (List.mem_cons_self _ _)
    clear h ih
    induction acc with
    | nil => simp [dictInsert, dictGet, hne]
    | cons q acc ih =>
      by_cases hq : q.1 == kv.1
      · have hqk : (q.1 == k) = false := by
          rw [beq_iff_eq] at hq
          rw [hq]; exact hne
        simp [dictInsert, hq, dictGet, List.find?, hne, hqk]
      · by_cases hqk : q.1 == k
        · simp [dictInsert, hq, dictGet, List.find?, hqk]
        · simp [dictInsert, hq, dictGet, List.find?, hqk] at ih ⊢
          exact ih

theorem dictGet_foldl_of_mem (md : List (String × String)) (k v : String)
    (acc : List (String × String)) (hnd : (md.map Prod.fst).Nodup)
    (hget : dictGet md k = some v) :
    dictGet (md.foldl (fun a kv => dictInsert a kv.1 kv.2) acc) k = some v := by
  induction md generalizing acc with
  | nil => simp [dictGet] at hget
  | cons kv tl ih =>
    rw [List.map_cons, List.nodup_cons] at hnd
    by_cases hk : kv.1 == k
    · have hkeq : kv.1 = k := beq_iff_eq.mp hk
      have hv : kv.2 = v := by
        simp [dictGet, List.find?, hk] at hget
        exact hget
      rw [List.foldl_cons,
        dictGet_foldl_of_not_mem tl k _ (fun p hp => ?_), hkeq, hv,
        dictGet_insert_self]
      rw [beq_eq_false_iff_ne]
      intro hcontra
      apply hnd.1
      rw [hkeq, ← hcontra]
      exact List.mem_map_of_mem Prod.fst hp
    · have hget' : dictGet tl k = some v := by
        simp [dictGet, List.find?, hk] at hget ⊢
        exact hget
      rw [List.foldl_cons]
      exact ih _ hnd.2 hget'

theorem placeholderEmbedding_length (rng : Nat → ℚ) :
    (placeholderEmbedding rng).length = 3072 := by
  simp [placeholderEmbedding]

theorem get_embedding_isEmpty_false (env : EmbedEnv) (t : String)
    (h : env.provider_response ≠ some []) :
    (get_embedding env t).isEmpty = false := by
  have hplace : ∀ rng : Nat → ℚ, (placeholderEmbedding rng).isEmpty = false := by
    intro rng
    cases hpe : placeholderEmbedding rng with
    | nil =>
      have := placeholderEmbedding_length rng
      rw [hpe] at this
      simp at this
    | cons a l => rfl
  unfold get_embedding
  by_cases hb : pyFalsyOptStr env.openai_api_key
  · rw [if_pos hb]
    exact hplace env.rng
  · rw [if_neg hb]
    cases hp : env.provider_response with
    | none => exact hplace env.rng
    | some emb =>
      cases emb with
      | nil => exact absurd hp h
      | cons a l => rfl

theorem buildVectors_err_of_bad (env : EmbedEnv) (records : List UpsertRecord)
    (hprov : env.provider_response ≠ some [])
    (hbad : ∃ r ∈ records,
      pyFalsyOptStr r.recId = true ∨ pyFalsyOptStr r.content = true) :
    buildVectors env records = .error "Each record must have _id and content fields" := by
  induction records with
  | nil => simp at hbad
  | cons r rs ih =>
    by_cases hr : pyFalsyOptStr r.recId || pyFalsyOptStr r.content
    · simp [buildVectors, hr]
    · have hmem : ∃ r ∈ rs, pyFalsyOptStr r.recId = true ∨ pyFalsyOptStr r.content = true := by
        obtain ⟨x, hx, hxbad⟩ := hbad
        rcases List.mem_cons.mp hx with rfl | hxs
        · rw [Bool.or_eq_true] at hr
          rcases hxbad with hb | hb <;> exact absurd (Or.imp id id (by rw [hb] at hr ⊢; tauto)) hr
        · exact ⟨x, hxs, hxbad⟩
      simp [buildVectors, hr, get_embedding_isEmpty_false env _ hprov, ih hmem]

theorem filter_self_idem {α : Type} (p : α → Bool) (l : List α) :
    (l.filter p).filter p = l.filter p := by
  induction l with
  | nil => rfl
  | cons a l ih => cases h : p a <;> simp [List.filter_cons, h, ih]

theorem lexBefore_le {p q : Nat × SavedBlock} (h : lexBefore p q) : pairOrderLe p q := by
  rcases h with h | ⟨h, _⟩
  · exact le_of_lt h
  · exact le_of_eq h

theorem orderedInsert_pairwise_lexBefore (x : Nat × SavedBlock)
    (l : List (Nat × SavedBlock)) (hp : l.Pairwise lexBefore)
    (hx : ∀ y ∈ l, x.1 < y.1) :
    (l.orderedInsert pairOrderLe x).Pairwise lexBefore := by
  induction l with
  | nil => simp [List.orderedInsert, lexBefore]
  | cons b L ih =>
    rw [List.pairwise_cons] at hp
    rw [List.orderedInsert]
    by_cases hxb : pairOrderLe x b
    · rw [if_pos hxb]
      refine List.Pairwise.cons ?_ (List.Pairwise.cons hp.1 hp.2)
      intro y hy
      rcases List.mem_cons.mp hy with rfl | hyL
      · rcases lt_or_eq_of_le hxb with hlt | heq
        · exact Or.inl hlt
        · exact Or.inr ⟨heq, hx y (List.mem_cons_self _ _)⟩
      · have hby : b.2.order ≤ y.2.order := lexBefore_le (hp.1 y hyL)
        rcases lt_or_eq_of_le (le_trans hxb hby) with hlt | heq
        · exact Or.inl hlt
        · exact Or.inr ⟨heq, hx y (List.mem_cons_of_mem _ hyL)⟩
    · rw [if_neg hxb]
      have hbx : b.2.order < x.2.order := not_le.mp hxb
      refine List.Pairwise.cons ?_
        (ih hp.2 (fun y hy => hx y (List.mem_cons_of_mem _ hy)))
      intro y hy
      rcases (List.mem_orderedInsert pairOrderLe).mp hy with rfl | hyL
      · exact Or.inl hbx
      · exact hp.1 y hyL

theorem insertionSort_pairwise_lexBefore (l : List (Nat × SavedBlock))
    (h : l.Pairwise (fun p q => p.1 < q.1)) :
    (l.insertionSort pairOrderLe).Pairwise lexBefore := by
  induction l with
  | nil => simp [List.insertionSort]
  | cons a L ih =>
    rw [List.pairwise_cons] at h
    rw [List.insertionSort]
    exact orderedInsert_pairwise_lexBefore a _ (ih h.2)
      (fun y hy => h.1 y ((List.mem_insertionSort pairOrderLe).mp hy))

theorem fst_le_of_mem_enumFrom {α : Type} (l : List α) (n : Nat) (p : Nat × α)
    (hp : p ∈ l.enumFrom n) : n ≤ p.1 := by
  induction l generalizing n with
  | nil => simp [List.enumFrom] at hp
  | cons a L ih =>
    rw [List.enumFrom] at hp
    rcases List.mem_cons.mp hp with rfl | h
    · exact le_refl n
    · exact le_trans (Nat.le_succ n) (ih (n + 1) h)

theorem pairwise_fst_lt_enumFrom {α : Type} (l : List α) (n : Nat) :
    (l.enumFrom n).Pairwise (fun p q => p.1 < q.1) := by
  induction l generalizing n with
  | nil => simp [List.enumFrom]
  | cons a L ih =>
    rw [List.enumFrom]
    exact List.Pairwise.cons
      (fun q hq => lt_of_lt_of_le (Nat.lt_succ_self n)
        (fst_le_of_mem_enumFrom L (n + 1) q hq)) (ih (n + 1))

theorem enumFrom_map_snd {α : Type} (l : List α) (n : Nat) :
    (l.enumFrom n).map Prod.snd = l := by
  induction l generalizing n with
  | nil => rfl
  | cons a L ih => rw [List.enumFrom, List.map_cons, ih (n + 1)]

theorem save_text_blocks_eq_map_snd (blocks : List TextBlock) :
    ((savedList blocks).enum.insertionSort pairOrderLe).map Prod.snd
      = save_text_blocks blocks := by
  unfold save_text_blocks
  rw [List.map_insertionSort pairOrderLe bOrderLe Prod.snd _
    (fun a _ b _ => Iff.rfl)]
  rw [List.enum, enumFrom_map_snd]

/-! ### Claim theorems -/

/-- Claim C1 (confirmed): a search invocation scoped to a (non-empty)
namespace X only ever returns matches whose metadata tenant field (`userId`)
equals X, whatever mixed-tenant result set the external index produced. -/
theorem c1_search_tenant_scoped (env : EmbedEnv) (tq : String) (idx : Bool)
    (ns : String) (raw : List RawMatch) (ms : List MatchOut)
    (hns : ns ≠ "")
    (hres : search_records_endpoint env tq idx ns raw = .ok ms) :
    ∀ m ∈ ms, dictGet m.metadata "userId" = some ns := by
  intro m hm
  unfold search_records_endpoint at hres
  cases hsr : search_records env tq idx raw with
  | err msg => rw [hsr] at hres; simp at hres
  | ok found =>
    rw [hsr] at hres
    simp only [SearchHttpResponse.ok.injEq] at hres
    subst hres
    by_cases hcond : (!(ns == "") && !found.isEmpty) = true
    · rw [if_pos hcond] at hm
      exact beq_iff_eq.mp (List.mem_filter.mp hm).2
    · have h1 : (ns == "") = false := beq_eq_false_iff_ne.mpr hns
      have h2 : found.isEmpty = true := by
        by_contra h2
        apply hcond
        rw [Bool.not_eq_true] at h2
        rw [h1, h2]
        rfl
      rw [if_neg hcond] at hm
      cases found with
      | nil => simp at hm
      | cons a l => simp [List.isEmpty] at h2

/-- Witness for C1 at a concrete mixed-tenant result set. -/
theorem c1_search_tenant_scoped_witness :
    ("user-42" ≠ "")
    ∧ ∀ m ∈ [MatchOut.mk "a" 1 [("userId", "user-42"), ("title", "t")]],
        dictGet m.metadata "userId" = some "user-42" :=
  ⟨by decide,
   c1_search_tenant_scoped onlineEnv "hello" true "user-42" mixedRaw
     [MatchOut.mk "a" 1 [("userId", "user-42"), ("title", "t")]]
     (by decide) rfl⟩

/-- Claim C2 (confirmed): if any record of the batch lacks a truthy `_id` or
`content`, `upsert_records` fails with the validation message and no vector of
the batch is handed to the external index. -/
theorem c2_upsert_rejects_whole_batch (env : EmbedEnv)
    (records : List UpsertRecord) (ns : String)
    (hprov : env.provider_response ≠ some [])
    (hbad : ∃ r ∈ records,
      pyFalsyOptStr r.recId = true ∨ pyFalsyOptStr r.content = true) :
    upsert_records env true records ns
      = (UpsertResult.err "Each record must have _id and content fields", []) := by
  unfold upsert_records
  rw [buildVectors_err_of_bad env records hprov hbad]
  simp

/-- Witness for C2: a one-record batch whose record has no `_id`. -/
theorem c2_upsert_rejects_whole_batch_witness :
    (onlineEnv.provider_response ≠ some [])
    ∧ upsert_records onlineEnv true [⟨none, some "hi", none, none⟩] ""
        = (UpsertResult.err "Each record must have _id and content fields", []) :=
  ⟨by decide,
   c2_upsert_rejects_whole_batch onlineEnv [⟨none, some "hi", none, none⟩] ""
     (by decide) ⟨⟨none, some "hi", none, none⟩, by simp, Or.inl rfl⟩⟩

/-- Claim C3 (code bug): a batch whose block carries no `order` is rejected by
request validation (the pydantic `TextBlock` model requires `order`), instead
of being saved with `order = index` as the dead `hasattr` fallback intends. -/
theorem c3_missing_order_rejected :
    save_text_blocks_endpoint [⟨some "b1", some "one", none⟩]
      = SaveBlocksResponse.validationError
    ∧ SaveBlocksResponse.validationError
        ≠ SaveBlocksResponse.ok [⟨"b1", "one", 0⟩] :=
  ⟨rfl, by decide⟩

/-- Claim C4 (confirmed): the batch save returns the saved blocks sorted
ascending by `order`; on the submission-indexed list the sort is pairwise
`lexBefore`, i.e. equal orders keep their submission sequence (stable
tie-break), and dropping the indices recovers the endpoint's output. -/
theorem c4_save_blocks_sorted_stable (blocks : List TextBlock) :
    List.Sorted bOrderLe (save_text_blocks blocks)
    ∧ save_text_blocks blocks
        = ((savedList blocks).enum.insertionSort pairOrderLe).map Prod.snd
    ∧ ((savedList blocks).enum.insertionSort pairOrderLe).Pairwise lexBefore := by
  refine ⟨List.sorted_insertionSort bOrderLe _,
    (save_text_blocks_eq_map_snd blocks).symm, ?_⟩
  exact insertionSort_pairwise_lexBefore _
    (by rw [List.enum]; exact pairwise_fst_lt_enumFrom _ 0)

/-- Claim C5 (corrected), counterexample: on a stored user without a
`hashed_password` attribute, `authenticate_user` raises `KeyError` instead of
returning absent. -/
theorem c5_missing_credential_not_absent :
    authenticate_user noHashStore "x@y.z" "secret"
      = Except.error "KeyError: hashed_password"
    ∧ (Except.error "KeyError: hashed_password"
        : Except String (Option AuthUserOut)) ≠ Except.ok none :=
  ⟨rfl, by simp⟩

/-- Claim C5 (corrected, amended): `authenticate_user` returns absent when the
user is not found or when hash verification fails; when the found record has
no stored password hash the attribute access raises `KeyError`. -/
theorem c5_authenticate_absent_cases (store : UserStore) (email password : String) :
    (store email = none → authenticate_user store email password = .ok none)
    ∧ (∀ u h, store email = some u → u.hashed_password = some h →
        verify_password password h = false →
        authenticate_user store email password = .ok none)
    ∧ (∀ u, store email = some u → u.hashed_password = none →
        authenticate_user store email password
          = .error "KeyError: hashed_password") := by
  refine ⟨?_, ?_, ?_⟩
  · intro hn
    unfold authenticate_user get_user_by_email
    rw [hn]
  · intro u h hu hh hv
    unfold authenticate_user get_user_by_email
    rw [hu]
    simp [hh, hv]
  · intro u hu hh
    unfold authenticate_user get_user_by_email
    rw [hu]
    simp [hh]

/-- Witness for C5's amended theorem: an unknown email and a wrong password
both yield absent. -/
theorem c5_authenticate_absent_cases_witness :
    authenticate_user emptyUserStore "a@b.c" "pw" = Except.ok none
    ∧ authenticate_user (create_user emptyUserStore "a@b.c" "pw").2 "a@b.c" "wrong"
        = Except.ok none := by
  constructor
  · exact (c5_authenticate_absent_cases emptyUserStore "a@b.c" "pw").1 rfl
  · exact (c5_authenticate_absent_cases (create_user emptyUserStore "a@b.c" "pw").2
      "a@b.c" "wrong").2.1 _ (get_password_hash "pw") rfl rfl (by decide)

/-- Claim C6 (code bug): with both password and provider omitted (indeed for
every new user), the create-user endpoint fails with a `TypeError` surfaced as
HTTP 500 — not a `ValidationError` — and stores no user record. -/
theorem c6_create_user_typeerror_not_validation :
    (create_user_endpoint emptyUserStore noCredentialReq).1
      = CreateUserHttp.err 500
          "TypeError: create_user() got an unexpected keyword argument"
    ∧ (create_user_endpoint emptyUserStore noCredentialReq).2 "new@user.com" = none :=
  ⟨rfl, rfl⟩

/-- Claim C7 (confirmed): after `create_user`, authenticating with the same
email and password returns the user (same email); any different password
yields absent. -/
theorem c7_create_then_authenticate (store : UserStore)
    (email password other : String) (hne : other ≠ password) :
    authenticate_user (create_user store email password).2 email password
      = Except.ok (some ⟨"USER#" ++ email, email, true⟩)
    ∧ authenticate_user (create_user store email password).2 email other
      = Except.ok none := by
  constructor
  · unfold authenticate_user get_user_by_email create_user
    simp [verify_password]
  · unfold authenticate_user get_user_by_email create_user
    have hv : (get_password_hash password == get_password_hash other) = false := by
      rw [beq_eq_false_iff_ne]
      intro hcontra
      exact hne (get_password_hash_inj hcontra).symm
    simp [verify_password, hv]

/-- Witness for C7 at a concrete email and password pair. -/
theorem c7_create_then_authenticate_witness :
    ("pw2" ≠ "pw")
    ∧ (authenticate_user (create_user emptyUserStore "a@b.c" "pw").2 "a@b.c" "pw"
        = Except.ok (some ⟨"USER#" ++ "a@b.c", "a@b.c", true⟩)
      ∧ authenticate_user (create_user emptyUserStore "a@b.c" "pw").2 "a@b.c" "pw2"
        = Except.ok none) :=
  ⟨by decide, c7_create_then_authenticate emptyUserStore "a@b.c" "pw" "pw2" (by decide)⟩

/-- Claim C8 (confirmed): in degraded mode (no provider credential, or a
failing provider call) the embedding still has the fixed length 3072 with every
component in `[-1, 1]`, for any non-empty text. -/
theorem c8_embedding_fallback (env : EmbedEnv) (text : String)
    (_htext : text ≠ "")
    (hrng : ∀ i, 0 ≤ env.rng i ∧ env.rng i < 1)
    (hdeg : pyFalsyOptStr env.openai_api_key = true ∨ env.provider_response = none) :
    (get_embedding env text).length = 3072
    ∧ ∀ x ∈ get_embedding env text, -1 ≤ x ∧ x ≤ 1 := by
  have hred : get_embedding env text = placeholderEmbedding env.rng := by
    unfold get_embedding
    rcases hdeg with h | h
    · simp [h]
    · by_cases hb : pyFalsyOptStr env.openai_api_key <;> simp [hb, h]
  rw [hred]
  refine ⟨placeholderEmbedding_length env.rng, ?_⟩
  intro x hx
  simp only [placeholderEmbedding, List.mem_map, List.mem_range] at hx
  obtain ⟨i, _, rfl⟩ := hx
  have hi := hrng i
  unfold pyUniform
  constructor <;> linarith [hi.1, hi.2]

/-- Witness for C8 in the offline environment. -/
theorem c8_embedding_fallback_witness :
    ("hello" ≠ "")
    ∧ ((get_embedding offlineEnv "hello").length = 3072
      ∧ ∀ x ∈ get_embedding offlineEnv "hello", -1 ≤ x ∧ x ≤ 1) :=
  ⟨by decide,
   c8_embedding_fallback offlineEnv "hello" (by decide)
     (fun i => by constructor <;> norm_num [offlineEnv]) (Or.inl rfl)⟩

/-- Claim C9 (confirmed): the delete endpoint returns the success envelope for
every table (in particular when the block does not exist), and deleting the
same block twice produces the same envelope and the same table. -/
theorem c9_delete_idempotent_success (t : BlockTable) (pid bid : String) :
    (delete_text_block_endpoint t pid bid).1
      = DeleteEnvelope.mk "success" "Block deleted successfully"
    ∧ delete_text_block_endpoint (delete_text_block_endpoint t pid bid).2 pid bid
        = delete_text_block_endpoint t pid bid := by
  refine ⟨rfl, ?_⟩
  unfold delete_text_block_endpoint delete_text_block
  rw [filter_self_idem]

/-- Claim C10 (confirmed): a caller-supplied metadata key (such as `content`
or `title`) overwrites the pipeline-derived value in the stored vector's
metadata. -/
theorem c10_caller_metadata_overwrites (r : UpsertRecord)
    (md : List (String × String)) (k v : String)
    (hmd : r.metadata = some md)
    (hnd : (md.map Prod.fst).Nodup)
    (hget : dictGet md k = some v) :
    dictGet (mkVectorMetadata r) k = some v := by
  unfold mkVectorMetadata
  rw [hmd]
  exact dictGet_foldl_of_mem md k v _ hnd hget

/-- Witness for C10: the stored metadata `content` is the caller's forged
value, while the record's own content (the embedded text) differs. -/
theorem c10_caller_metadata_overwrites_witness :
    forgedContentRecord.metadata = some [("content", "forged")]
    ∧ dictGet (mkVectorMetadata forgedContentRecord) "content" = some "forged"
    ∧ forgedContentRecord.content = some "real content" :=
  ⟨rfl,
   c10_caller_metadata_overwrites forgedContentRecord [("content", "forged")]
     "content" "forged" rfl (by decide) (by decide),
   rfl⟩
